import Mathlib

/-!
Verification of the authentication and data-access core of the today-todo-app
repository (Express + tRPC + Drizzle, MySQL/SQLite).

The development shallowly embeds the server code:
* `server/db.ts` (dialect resolution, lazy connection, plan-items DDL, CRUD
  and date-range queries scoped by user id),
* `server/routers.ts` (the tRPC procedures `todo.*`, `plan.*`, `auth.*` and
  the week/month period-start computation),
* `server/_core/auth.ts` (scrypt password hashing, JWT session tokens,
  request authentication).

JavaScript `Date` values are modelled as a civil day count since 1970-01-01
plus a millisecond-of-day, both in local time (the code never deals with
time zones).  The civil calendar (conversion between day counts and
year/month/day fields, as performed by `Date#getFullYear`, `getMonth`,
`getDate`, `getDay`, `setDate` and the `new Date(y, m, 1)` constructor)
is given by the two Gregorian conversion functions below.

External libraries (`jose` for JWT, node `crypto` for scrypt and
`timingSafeEqual`) are modelled by abstract but faithful counterparts:
scrypt is an arbitrary parameter function producing 64 key bytes, and a JWT
is a record carrying the signing algorithm, the signing key, an intactness
flag and the `userId`/`exp` claims, with `jwtVerify` succeeding exactly when
the token is intact, the key matches and the token is not expired.
-/

/-! ## Gregorian calendar kernel

`daysFromCivil y m d` is the number of days from 1970-01-01 to the civil
date `y-m-d` (month 1..12, day 1..31); `civilFromDays` is its inverse.
The year-of-era is recovered in two steps (century of era, then year of
century), which is equivalent to the usual one-step formula.
-/

def daysFromCivil (y m d : Int) : Int :=
  let yy : Int := if m ≤ 2 then y - 1 else y
  let era : Int := yy / 400
  let yoe : Int := yy - era * 400
  let mp : Int := (m + 9) % 12
  let doy : Int := (153 * mp + 2) / 5 + d - 1
  let doe : Int := yoe * 365 + yoe / 4 - yoe / 100 + doy
  era * 146097 + doe - 719468

def eraOfZ (z : Int) : Int := (z + 719468) / 146097

def doeOfZ (z : Int) : Int := z + 719468 - eraOfZ z * 146097

def centOfDoe (doe : Int) : Int := (4 * doe + 3) / 146097

def docOfDoe (doe : Int) : Int := doe - (36524 * centOfDoe doe + centOfDoe doe / 4)

def yocOfDoe (doe : Int) : Int := (4 * docOfDoe doe + 3) / 1461

def doyOfDoe (doe : Int) : Int := docOfDoe doe - (365 * yocOfDoe doe + yocOfDoe doe / 4)

def mpOfDoy (doy : Int) : Int := (5 * doy + 2) / 153

def civilFromDays (z : Int) : Int × Int × Int :=
  (if mpOfDoy (doyOfDoe (doeOfZ z)) + (if mpOfDoy (doyOfDoe (doeOfZ z)) < 10 then 3 else -9) ≤ 2
     then 100 * centOfDoe (doeOfZ z) + yocOfDoe (doeOfZ z) + eraOfZ z * 400 + 1
     else 100 * centOfDoe (doeOfZ z) + yocOfDoe (doeOfZ z) + eraOfZ z * 400,
   mpOfDoy (doyOfDoe (doeOfZ z)) + (if mpOfDoy (doyOfDoe (doeOfZ z)) < 10 then 3 else -9),
   doyOfDoe (doeOfZ z) - (153 * mpOfDoy (doyOfDoe (doeOfZ z)) + 2) / 5 + 1)

/-! ## JavaScript `Date` model

A `DateTime` is a local-time instant: a civil day count since 1970-01-01
and a millisecond offset within that day (0 ≤ msOfDay < 86400000 for every
value produced by the real runtime; the bound is carried as a hypothesis
where a theorem needs it).
-/

structure DateTime where
  days : Int
  msOfDay : Int
deriving DecidableEq, Repr

def msPerDay : Int := 86400000

/-- Milliseconds since the epoch, the order in which the SQL layer compares
`timestamp` columns (`gte`/`lt` in drizzle). -/
def DateTime.toMillis (d : DateTime) : Int := d.days * msPerDay + d.msOfDay

/-- `Date#getDay`: 0 = Sunday .. 6 = Saturday; 1970-01-01 was a Thursday. -/
def jsGetDay (d : DateTime) : Int := (d.days + 4) % 7

/-- `Date#getDate`: the day of the month, 1..31. -/
def jsGetDate (d : DateTime) : Int := (civilFromDays d.days).2.2

/-- `Date#getMonth`: the month, 0-based (0 = January). -/
def jsGetMonth (d : DateTime) : Int := (civilFromDays d.days).2.1 - 1

/-- `Date#getFullYear`. -/
def jsGetFullYear (d : DateTime) : Int := (civilFromDays d.days).1

/-- `Date#setDate n`: moves the value to day-of-month `n` of the current
month, with out-of-range `n` normalized into adjacent months (ECMA-262
`MakeDay`); the time of day is unchanged. -/
def jsSetDate (d : DateTime) (n : Int) : DateTime :=
  { days := d.days - (jsGetDate d - 1) + (n - 1), msOfDay := d.msOfDay }

/-- `Date#setHours(0, 0, 0, 0)`. -/
def jsStartOfDay (d : DateTime) : DateTime := { days := d.days, msOfDay := 0 }

/-- `Date#setHours(23, 59, 59, 999)`. -/
def jsEndOfDay (d : DateTime) : DateTime := { days := d.days, msOfDay := 86399999 }

/-! ## Period-start computation (`server/routers.ts`) -/

inductive PeriodType where
  | week
  | month
deriving DecidableEq, Repr

/-- `getWeekStart` from `server/routers.ts`:
`diff = day === 0 ? -6 : 1 - day; start.setDate(start.getDate() + diff);
start.setHours(0,0,0,0)`. -/
def getWeekStart (date : DateTime) : DateTime :=
  let day := jsGetDay date
  let diff := if day = 0 then -6 else 1 - day
  let start := jsSetDate date (jsGetDate date + diff)
  jsStartOfDay start

/-- `getMonthStart` from `server/routers.ts`:
`new Date(date.getFullYear(), date.getMonth(), 1)` followed by
`setHours(0,0,0,0)` (already midnight). -/
def getMonthStart (date : DateTime) : DateTime :=
  { days := daysFromCivil (jsGetFullYear date) (jsGetMonth date + 1) 1, msOfDay := 0 }

/-- `getPlanPeriodStart` from `server/routers.ts` (the `anchor` defaults to
the current moment at the call sites). -/
def getPlanPeriodStart (type : PeriodType) (anchor : DateTime) : DateTime :=
  match type with
  | .week => getWeekStart anchor
  | .month => getMonthStart anchor

/-! ## Entities (`drizzle/schema.ts` / `schema.sqlite.ts`) -/

inductive Role where
  | user
  | admin
deriving DecidableEq, Repr

structure User where
  id : Nat
  username : String
  passwordHash : List Char
  name : Option String
  email : Option String
  role : Role
  createdAt : DateTime
  updatedAt : DateTime
  lastSignedIn : DateTime
deriving DecidableEq, Repr

structure Todo where
  id : Nat
  userId : Nat
  title : String
  description : Option String
  completed : Bool
  createdAt : DateTime
  updatedAt : DateTime
  dueDate : Option DateTime
deriving DecidableEq, Repr

structure PlanItem where
  id : Nat
  userId : Nat
  periodType : PeriodType
  periodStart : DateTime
  title : String
  description : Option String
  completed : Bool
  createdAt : DateTime
  updatedAt : DateTime
deriving DecidableEq, Repr

/-! ## Stable insertion sort (model of the SQL `ORDER BY`) -/

def insertLe {α : Type} (le : α → α → Bool) (x : α) : List α → List α
  | [] => [x]
  | y :: ys => if le x y then x :: y :: ys else y :: insertLe le x ys

def sortByLe {α : Type} (le : α → α → Bool) : List α → List α
  | [] => []
  | x :: xs => insertLe le x (sortByLe le xs)

/-- `ORDER BY createdAt` key comparison (strict, so the sort is stable). -/
def createdLt (a b : Todo) : Bool := a.createdAt.toMillis < b.createdAt.toMillis

def planCreatedLt (a b : PlanItem) : Bool := a.createdAt.toMillis < b.createdAt.toMillis

def dueMillisOrZero (t : Todo) : Int :=
  match t.dueDate with
  | some d => d.toMillis
  | none => 0

/-- `ORDER BY dueDate, createdAt` key comparison. -/
def dueThenCreatedLt (a b : Todo) : Bool :=
  dueMillisOrZero a < dueMillisOrZero b ||
    (dueMillisOrZero a == dueMillisOrZero b && a.createdAt.toMillis < b.createdAt.toMillis)

/-! ## Data-access layer: todos (`server/db.ts`) -/

/-- The `gte(todos.dueDate, start) ∧ lt(todos.dueDate, end + 1ms)` filter;
a SQL `NULL` due date satisfies neither comparison. -/
def dueWithin (t : Todo) (startOfDay endOfDay : DateTime) : Bool :=
  match t.dueDate with
  | some dd => startOfDay.toMillis ≤ dd.toMillis && dd.toMillis < endOfDay.toMillis + 1
  | none => false

/-- `getTodosByUserId(userId, dueDate?)`. -/
def getTodosByUserId (db : List Todo) (userId : Nat) (dueDate : Option DateTime) : List Todo :=
  match dueDate with
  | some d =>
    let startOfDay := jsStartOfDay d
    let endOfDay := jsEndOfDay d
    sortByLe createdLt (db.filter (fun t => t.userId == userId && dueWithin t startOfDay endOfDay))
  | none => sortByLe createdLt (db.filter (fun t => t.userId == userId))

/-- `getTodosDateRange(userId, startDate, endDate)`. -/
def getTodosDateRange (db : List Todo) (userId : Nat) (startDate endDate : DateTime) : List Todo :=
  let start := jsStartOfDay startDate
  let «end» := jsEndOfDay endDate
  sortByLe dueThenCreatedLt
    (db.filter (fun t => t.userId == userId && dueWithin t start «end»))

/-- `getTodoById(id, userId)`: `where id = ? and userId = ? limit 1`. -/
def getTodoById (id : Nat) (userId : Nat) (db : List Todo) : Option Todo :=
  db.find? (fun t => t.id == id && t.userId == userId)

/-- The fields an `updateTodo` call may change (`Partial<InsertTodo>` as the
routers use it). -/
structure TodoUpdate where
  title : Option String := none
  description : Option String := none
  completed : Option Bool := none
  dueDate : Option DateTime := none
deriving DecidableEq, Repr

def applyTodoUpdate (u : TodoUpdate) (updatedAt : DateTime) (t : Todo) : Todo :=
  { t with
    title := u.title.getD t.title
    description := match u.description with | some s => some s | none => t.description
    completed := u.completed.getD t.completed
    dueDate := match u.dueDate with | some d => some d | none => t.dueDate
    updatedAt := updatedAt }

/-- `updateTodo(id, userId, updates)`: `updatedAt` is defaulted to the
current moment when the caller does not supply it (the routers never do). -/
def updateTodo (id : Nat) (userId : Nat) (u : TodoUpdate) (now : DateTime)
    (db : List Todo) : List Todo :=
  db.map (fun t => if t.id == id && t.userId == userId then applyTodoUpdate u now t else t)

/-- `deleteTodo(id, userId)`. -/
def deleteTodo (id : Nat) (userId : Nat) (db : List Todo) : List Todo :=
  db.filter (fun t => !(t.id == id && t.userId == userId))

/-- `InsertTodo` as assembled by `todo.create` before `createTodo` adds the
owning user id; `id`/`createdAt`/`updatedAt` come from column defaults. -/
structure InsertTodo where
  title : String
  description : Option String := none
  completed : Bool := false
  dueDate : Option DateTime := none
deriving DecidableEq, Repr

/-- `createTodo(userId, todo)`: inserts `{...todo, userId}`; the store
assigns the fresh id and the `defaultNow()` timestamps. -/
def createTodo (userId : Nat) (todo : InsertTodo) (now : DateTime) (freshId : Nat)
    (db : List Todo) : List Todo :=
  db ++ [{ id := freshId
           userId := userId
           title := todo.title
           description := todo.description
           completed := todo.completed
           createdAt := now
           updatedAt := now
           dueDate := todo.dueDate }]

/-! ## Data-access layer: plan items (`server/db.ts`) -/

/-- `getPlanItemsByPeriod(userId, periodType, periodStart)`. -/
def getPlanItemsByPeriod (db : List PlanItem) (userId : Nat) (periodType : PeriodType)
    (periodStart : DateTime) : List PlanItem :=
  sortByLe planCreatedLt
    (db.filter (fun p =>
      p.userId == userId && decide (p.periodType = periodType) &&
        decide (p.periodStart = periodStart)))

/-- `getPlanItemById(userId, id)`. -/
def getPlanItemById (userId : Nat) (id : Nat) (db : List PlanItem) : Option PlanItem :=
  db.find? (fun p => p.id == id && p.userId == userId)

structure PlanItemUpdate where
  title : Option String := none
  description : Option String := none
  completed : Option Bool := none
deriving DecidableEq, Repr

def applyPlanItemUpdate (u : PlanItemUpdate) (updatedAt : DateTime) (p : PlanItem) : PlanItem :=
  { p with
    title := u.title.getD p.title
    description := match u.description with | some s => some s | none => p.description
    completed := u.completed.getD p.completed
    updatedAt := updatedAt }

/-- `updatePlanItem(userId, id, updates)`: always stamps `updatedAt`. -/
def updatePlanItem (userId : Nat) (id : Nat) (u : PlanItemUpdate) (now : DateTime)
    (db : List PlanItem) : List PlanItem :=
  db.map (fun p => if p.id == id && p.userId == userId then applyPlanItemUpdate u now p else p)

/-- `deletePlanItem(userId, id)`. -/
def deletePlanItem (userId : Nat) (id : Nat) (db : List PlanItem) : List PlanItem :=
  db.filter (fun p => !(p.id == id && p.userId == userId))

/-- `createPlanItem(userId, input)`: `completed` starts false, timestamps are
the current moment, `description` defaults to null. -/
def createPlanItem (userId : Nat)
    (periodType : PeriodType) (periodStart : DateTime) (title : String)
    (description : Option String) (now : DateTime) (freshId : Nat)
    (db : List PlanItem) : List PlanItem :=
  db ++ [{ id := freshId
           userId := userId
           periodType := periodType
           periodStart := periodStart
           title := title
           description := description
           completed := false
           createdAt := now
           updatedAt := now }]

/-! ## tRPC procedure layer (`server/routers.ts`)

Each mutation is modelled as a function from the store to a result paired
with the successor store; a thrown `TRPCError` becomes an `Except.error`
and leaves the store untouched.
-/

inductive TRPCErrorCode where
  | NOT_FOUND
  | CONFLICT
  | UNAUTHORIZED
  | INTERNAL_SERVER_ERROR
deriving DecidableEq, Repr

structure TRPCErr where
  code : TRPCErrorCode
  message : String
deriving DecidableEq, Repr

def todoNotFound : TRPCErr := { code := .NOT_FOUND, message := "Todo not found" }

def planItemNotFound : TRPCErr := { code := .NOT_FOUND, message := "Plan item not found" }

/-- Input of `todo.create` after zod validation (`description` and `dueDate`
optional). -/
structure TodoCreateInput where
  title : String
  description : Option String := none
  dueDate : Option DateTime := none
deriving DecidableEq, Repr

/-- The `todoData` object built by `todo.create`: `dueDate` falls back to
`new Date()` (a `Date` object is always truthy, so `||` acts as a default),
`completed` starts `false`, and `description` is only attached when it is a
truthy (non-empty) string. -/
def todoDataOf (input : TodoCreateInput) (now : DateTime) : InsertTodo :=
  { title := input.title
    dueDate := some (input.dueDate.getD now)
    completed := false
    description := match input.description with
      | some s => if s = "" then none else some s
      | none => none }

/-- `todo.create`. -/
def todoCreate (uid : Nat) (input : TodoCreateInput) (now : DateTime) (freshId : Nat)
    (db : List Todo) : List Todo :=
  createTodo uid (todoDataOf input now) now freshId db

/-- `todo.list`. -/
def todoList (uid : Nat) (date : Option DateTime) (db : List Todo) : List Todo :=
  getTodosByUserId db uid date

/-- `todo.history`. -/
def todoHistory (uid : Nat) (startDate endDate : DateTime) (db : List Todo) : List Todo :=
  getTodosDateRange db uid startDate endDate

/-- `todo.get`. -/
def todoGet (uid : Nat) (id : Nat) (db : List Todo) : Except TRPCErr Todo :=
  match getTodoById id uid db with
  | none => .error todoNotFound
  | some t => .ok t

/-- `todo.update`: not-found check, then `updateTodo`, then re-read. -/
def todoUpdate (uid : Nat) (id : Nat) (u : TodoUpdate) (now : DateTime)
    (db : List Todo) : Except TRPCErr (Option Todo) × List Todo :=
  match getTodoById id uid db with
  | none => (.error todoNotFound, db)
  | some _ =>
    let db2 := updateTodo id uid u now db
    (.ok (getTodoById id uid db2), db2)

/-- `todo.delete`. -/
def todoDelete (uid : Nat) (id : Nat) (db : List Todo) :
    Except TRPCErr Bool × List Todo :=
  match getTodoById id uid db with
  | none => (.error todoNotFound, db)
  | some _ => (.ok true, deleteTodo id uid db)

/-- `todo.toggle`: flips `completed` and re-reads. -/
def todoToggle (uid : Nat) (id : Nat) (now : DateTime) (db : List Todo) :
    Except TRPCErr (Option Todo) × List Todo :=
  match getTodoById id uid db with
  | none => (.error todoNotFound, db)
  | some todo =>
    let db2 := updateTodo id uid { completed := some (!todo.completed) } now db
    (.ok (getTodoById id uid db2), db2)

/-- `plan.list`: the period start is computed from the current moment. -/
def planList (uid : Nat) (type : PeriodType) (now : DateTime)
    (db : List PlanItem) : List PlanItem :=
  getPlanItemsByPeriod db uid type (getPlanPeriodStart type now)

/-- `plan.create`. -/
def planCreate (uid : Nat) (type : PeriodType) (title : String)
    (description : Option String) (now : DateTime) (freshId : Nat)
    (db : List PlanItem) : List PlanItem :=
  createPlanItem uid type (getPlanPeriodStart type now) title description now freshId db

/-- `plan.toggle`. -/
def planToggle (uid : Nat) (id : Nat) (now : DateTime) (db : List PlanItem) :
    Except TRPCErr (Option PlanItem) × List PlanItem :=
  match getPlanItemById uid id db with
  | none => (.error planItemNotFound, db)
  | some planItem =>
    let db2 := updatePlanItem uid id { completed := some (!planItem.completed) } now db
    (.ok (getPlanItemById uid id db2), db2)

/-- `plan.delete`. -/
def planDelete (uid : Nat) (id : Nat) (db : List PlanItem) :
    Except TRPCErr Bool × List PlanItem :=
  match getPlanItemById uid id db with
  | none => (.error planItemNotFound, db)
  | some _ => (.ok true, deletePlanItem uid id db)

/-! ## Password hasher (`server/_core/auth.ts`)

Salts and stored hashes are byte/character lists; passwords are strings.
`scrypt` stands for node's `scryptSync(password, salt, 64)` and is kept
abstract (a parameter) since it is an external primitive; `timingSafeEqual`
on equal-length buffers is equality of the byte lists.
-/

def hexDigitChar (n : Nat) : Char :=
  if n < 10 then Char.ofNat (48 + n) else Char.ofNat (87 + n)

/-- `Buffer#toString("hex")` (lowercase). -/
def toHex : List (Fin 256) → List Char
  | [] => []
  | b :: bs => hexDigitChar (b.val / 16) :: hexDigitChar (b.val % 16) :: toHex bs

def hexVal? (c : Char) : Option (Fin 16) :=
  if h1 : 48 ≤ c.toNat ∧ c.toNat ≤ 57 then some ⟨c.toNat - 48, by omega⟩
  else if h2 : 97 ≤ c.toNat ∧ c.toNat ≤ 102 then some ⟨c.toNat - 87, by omega⟩
  else if h3 : 65 ≤ c.toNat ∧ c.toNat ≤ 70 then some ⟨c.toNat - 55, by omega⟩
  else none

/-- `Buffer.from(key, "hex")`: consumes hex-digit pairs, stopping at the
first pair it cannot parse (a trailing odd character is dropped). -/
def bufferFromHex : List Char → List (Fin 256)
  | c1 :: c2 :: rest =>
    match hexVal? c1, hexVal? c2 with
    | some h, some l => ⟨16 * h.val + l.val, by omega⟩ :: bufferFromHex rest
    | _, _ => []
  | _ => []

/-- `storedHash.split(":")`, written over character lists. -/
def splitColonAux : List Char → List Char × List (List Char)
  | [] => ([], [])
  | c :: rest =>
    let r := splitColonAux rest
    if c = ':' then ([], r.1 :: r.2) else (c :: r.1, r.2)

def splitOnColon (s : List Char) : List (List Char) :=
  (splitColonAux s).1 :: (splitColonAux s).2

/-- `hashPassword`: `salt` stands for `randomBytes(16).toString("hex")`
(an arbitrary hex string supplied by the environment); the result is
`salt:derivedKeyHex`. -/
def hashPassword (scrypt : String → List Char → List (Fin 256))
    (salt : List Char) (password : String) : List Char :=
  salt ++ ':' :: toHex (scrypt password salt)

/-- `verifyPassword`: split the stored value on `:`, reject a missing or
empty salt or key, re-derive, compare lengths, then compare content
(`timingSafeEqual`). -/
def verifyPassword (scrypt : String → List Char → List (Fin 256))
    (password : String) (storedHash : List Char) : Bool :=
  let parts := splitOnColon storedHash
  let salt := parts.getD 0 []
  let key := parts.getD 1 []
  if salt.isEmpty || key.isEmpty then false
  else
    let derivedKey := scrypt password salt
    let storedKey := bufferFromHex key
    if storedKey.length != derivedKey.length then false
    else storedKey == derivedKey

/-! ## Session tokens (`server/_core/auth.ts`)

A token is the payload-and-envelope record the `jose` library would
produce: the protected-header algorithm, the signing key it was signed
with, an intactness flag (false for structurally broken or tampered
tokens), and the `userId` and `exp` claims.  `jwtVerify` succeeds exactly
when the token is intact, was signed with the presented key, its algorithm
is in the allowed list, and the `exp` claim lies in the future.
-/

def SESSION_ALG : String := "HS256"

/-- Modelled from the spec: `ONE_YEAR_MS` lives in `@shared/const`, which is
not part of the sources; the spec fixes the session TTL at one year. -/
def ONE_YEAR_MS : Int := 31536000000

/-- Modelled from the spec: `COOKIE_NAME` lives in `@shared/const`, which is
not part of the sources; the spec only requires a fixed cookie name. -/
def COOKIE_NAME : String := "app_session_token"

inductive RawVal where
  | num (n : Int)
  | str (s : String)
  | other
deriving DecidableEq, Repr

structure Token where
  alg : String
  payloadUserId : Option RawVal
  exp : Int
  key : String
  intact : Bool
deriving DecidableEq, Repr

/-- Model of `jose.jwtVerify(token, key, { algorithms })` at time `nowSec`
(seconds since epoch): `none` is a thrown verification error. -/
def jwtVerify (t : Token) (key : String) (algorithms : List String) (nowSec : Int) :
    Option (Option RawVal) :=
  if t.intact && t.key == key && algorithms.contains t.alg && decide (nowSec < t.exp)
    then some t.payloadUserId else none

/-- `createSessionToken(userId)` at issue time `issuedAtMs`:
`exp = Math.floor((issuedAt + ONE_YEAR_MS) / 1000)` (integer division on
nonnegative clock values equals floor). -/
def createSessionToken (secret : String) (issuedAtMs : Int) (userId : Int) : Token :=
  { alg := SESSION_ALG
    payloadUserId := some (.num userId)
    exp := (issuedAtMs + ONE_YEAR_MS) / 1000
    key := secret
    intact := true }

def isJsSpace (c : Char) : Bool :=
  c == ' ' || c == '\t' || c == '\n' || c == '\r'

def trimChars (cs : List Char) : List Char :=
  ((cs.dropWhile isJsSpace).reverse.dropWhile isJsSpace).reverse

/-- `String#trim`. -/
def jsTrim (s : String) : String := String.mk (trimChars s.data)

def digitsVal? (cs : List Char) : Option Nat :=
  if cs.isEmpty then none
  else if cs.all (fun c => 48 ≤ c.toNat && c.toNat ≤ 57) then
    some (cs.foldl (fun a c => 10 * a + (c.toNat - 48)) 0)
  else none

/-- Model of JavaScript `Number(string)` on the decimal-integer fragment
(optionally signed digit runs; everything else — including fractional or
exponent forms, which could not name a row id anyway — maps to `none`,
i.e. `NaN`). -/
def jsToNumber (s : String) : Option Int :=
  match trimChars s.data with
  | [] => some 0
  | '-' :: rest => (digitsVal? rest).map (fun n => -(n : Int))
  | '+' :: rest => (digitsVal? rest).map (fun n => (n : Int))
  | cs => (digitsVal? cs).map (fun n => (n : Int))

/-- `verifySessionToken`: any `jwtVerify` failure is caught and becomes
`null`; a numeric `userId` claim is returned as-is; a non-empty string
claim goes through `Number(...)` with `NaN` mapped to `null`. -/
def verifySessionToken (secret : String) (nowSec : Int) (token : Token) : Option Int :=
  match jwtVerify token secret [SESSION_ALG] nowSec with
  | none => none
  | some rawUserId =>
    match rawUserId with
    | some (.num n) => some n
    | some (.str s) => if jsTrim s ≠ "" then jsToNumber s else none
    | some .other => none
    | none => none

/-! ## Credential store (`server/db.ts` user queries) -/

def getUserByUsername (username : String) (users : List User) : Option User :=
  users.find? (fun u => u.username == username)

def getUserById (userId : Int) (users : List User) : Option User :=
  users.find? (fun u => (u.id : Int) == userId)

/-- `createUser(input)`: fills defaults (`name`/`email` null, role `user`)
and stamps all three timestamps with the current moment. -/
def createUser (username : String) (passwordHash : List Char) (name : Option String)
    (email : Option String) (role : Role) (now : DateTime) (freshId : Nat)
    (users : List User) : List User :=
  users ++ [{ id := freshId
              username := username
              passwordHash := passwordHash
              name := name
              email := email
              role := role
              createdAt := now
              updatedAt := now
              lastSignedIn := now }]

/-! ## Request authentication (`server/_core/auth.ts`) -/

/-- What `sanitizeUser` returns: the user record with `passwordHash`
removed (the type has no such field). -/
structure AuthUser where
  id : Nat
  username : String
  name : Option String
  email : Option String
  role : Role
  createdAt : DateTime
  updatedAt : DateTime
  lastSignedIn : DateTime
deriving DecidableEq, Repr

def sanitizeUser (u : User) : AuthUser :=
  { id := u.id
    username := u.username
    name := u.name
    email := u.email
    role := u.role
    createdAt := u.createdAt
    updatedAt := u.updatedAt
    lastSignedIn := u.lastSignedIn }

/-- The failure type thrown by the middleware.  Modelled from the spec:
`ForbiddenError` lives in `@shared/_core/errors`, which is not part of the
sources; the spec describes it as an access-denied ("forbidden") failure
carrying the message passed at the throw site. -/
inductive AuthFailure where
  | forbidden (message : String)
deriving DecidableEq, Repr

def ForbiddenError (message : String) : AuthFailure := .forbidden message

/-- An incoming request: its parsed cookie header. -/
structure AuthRequest where
  cookies : List (String × Token)
deriving Repr

/-- `authenticateRequest(req)`: missing cookie, failed verification (a
falsy user id, so `null` or `0`), and unknown user id each throw a
`ForbiddenError` with a cause-specific message. -/
def authenticateRequest (secret : String) (nowSec : Int) (users : List User)
    (req : AuthRequest) : Except AuthFailure AuthUser :=
  match (req.cookies.find? (fun kv => kv.1 == COOKIE_NAME)).map (fun kv => kv.2) with
  | none => .error (ForbiddenError "Missing session cookie")
  | some sessionCookie =>
    match verifySessionToken secret nowSec sessionCookie with
    | none => .error (ForbiddenError "Invalid session cookie")
    | some userId =>
      if userId == 0 then .error (ForbiddenError "Invalid session cookie")
      else
        match getUserById userId users with
        | none => .error (ForbiddenError "User not found")
        | some user => .ok (sanitizeUser user)

/-! ## `auth.register` (`server/routers.ts`) -/

structure RegisterInput where
  username : String
  password : String
  name : Option String := none
deriving Repr

/-- A `res.cookie(name, value, { ...options, maxAge })` call. -/
structure SetCookie where
  name : String
  token : Token
  maxAge : Int
deriving DecidableEq, Repr

/-- `auth.register`: conflict on an existing username, otherwise create the
user (admin role exactly when the username matches a configured non-empty
`OWNER_USERNAME`), re-read it, issue a session token for its id, set the
session cookie with the one-year max-age, and return the sanitized user. -/
def authRegister (scrypt : String → List Char → List (Fin 256)) (salt : List Char)
    (secret : String) (ownerUsername : String) (input : RegisterInput)
    (now : DateTime) (nowMs : Int) (freshId : Nat) (users : List User) :
    Except TRPCErr (AuthUser × SetCookie) × List User :=
  match getUserByUsername input.username users with
  | some _ => (.error { code := .CONFLICT, message := "Username already exists" }, users)
  | none =>
    let role : Role :=
      if ownerUsername ≠ "" ∧ input.username = ownerUsername then .admin else .user
    let passwordHash := hashPassword scrypt salt input.password
    let users2 := createUser input.username passwordHash input.name none role now freshId users
    match getUserByUsername input.username users2 with
    | none =>
      (.error { code := .INTERNAL_SERVER_ERROR, message := "Failed to create user" }, users2)
    | some user =>
      let sessionToken := createSessionToken secret nowMs (user.id : Int)
      (.ok (sanitizeUser user,
            { name := COOKIE_NAME, token := sessionToken, maxAge := ONE_YEAR_MS }),
       users2)

/-! ## Dialect resolution and lazy connection (`server/db.ts`) -/

def strToLower (s : String) : String := String.mk (s.data.map Char.toLower)

def strStartsWith (s p : String) : Bool := p.data.isPrefixOf s.data

def strEndsWith (s p : String) : Bool := p.data.reverse.isPrefixOf s.data.reverse

inductive DbDialect where
  | mysql
  | sqlite
deriving DecidableEq, Repr

/-- `resolveDialect(databaseUrl)`: the `DB_DIALECT` override wins when it
names a supported dialect; otherwise a `sqlite:`/`file:` scheme or a
`.db`/`.sqlite`/`.sqlite3` suffix (case-insensitive) means sqlite and
anything else means mysql. -/
def resolveDialect (dbDialectEnv : Option String) (databaseUrl : String) : DbDialect :=
  let override := dbDialectEnv.map strToLower
  if override = some "mysql" then .mysql
  else if override = some "sqlite" then .sqlite
  else if strStartsWith databaseUrl "sqlite:" || strStartsWith databaseUrl "file:" then .sqlite
  else if strEndsWith (strToLower databaseUrl) ".db"
      || strEndsWith (strToLower databaseUrl) ".sqlite"
      || strEndsWith (strToLower databaseUrl) ".sqlite3" then .sqlite
  else .mysql

def PLAN_ITEMS_SQLITE : String :=
  "CREATE TABLE IF NOT EXISTS plan_items (id INTEGER PRIMARY KEY AUTOINCREMENT, userId INTEGER NOT NULL, periodType TEXT NOT NULL, periodStart INTEGER NOT NULL, title TEXT NOT NULL, description TEXT, completed INTEGER NOT NULL DEFAULT 0, createdAt INTEGER NOT NULL, updatedAt INTEGER NOT NULL)"

def PLAN_ITEMS_MYSQL : String :=
  "CREATE TABLE IF NOT EXISTS plan_items (id INT AUTO_INCREMENT PRIMARY KEY, userId INT NOT NULL, periodType ENUM('week','month') NOT NULL, periodStart TIMESTAMP NOT NULL, title TEXT NOT NULL, description TEXT, completed BOOLEAN NOT NULL DEFAULT false, createdAt TIMESTAMP NOT NULL DEFAULT CURRENT_TIMESTAMP, updatedAt TIMESTAMP NOT NULL DEFAULT CURRENT_TIMESTAMP ON UPDATE CURRENT_TIMESTAMP)"

structure DbEnv where
  databaseUrl : String
  dbDialectOverride : Option String
deriving Repr

/-- The module-level connection state of `server/db.ts`, with a log of the
DDL statements executed on demand. -/
structure DbConnState where
  dbHandle : Option DbDialect
  dialectCache : Option DbDialect
  sqliteHandle : Bool
  planTableReady : Bool
  executedDdl : List String
deriving DecidableEq, Repr

def initialDbState : DbConnState :=
  { dbHandle := none
    dialectCache := none
    sqliteHandle := false
    planTableReady := false
    executedDdl := [] }

/-- `ensurePlanItemsTable(dialect, db, sqlite)`: a no-op once the table is
known to exist; on the sqlite path it needs the raw sqlite handle; on the
mysql path it executes the `CREATE TABLE IF NOT EXISTS` through the
connection (the success path is modelled; a throwing driver is caught and
only skips the ready flag). -/
def ensurePlanItemsTable (dialect : DbDialect) (st : DbConnState) : DbConnState :=
  if st.planTableReady then st
  else
    match dialect with
    | .sqlite =>
      if !st.sqliteHandle then st
      else { st with executedDdl := st.executedDdl ++ [PLAN_ITEMS_SQLITE], planTableReady := true }
    | .mysql =>
      { st with executedDdl := st.executedDdl ++ [PLAN_ITEMS_MYSQL], planTableReady := true }

/-- `getDb()`: on first use with a configured `DATABASE_URL`, resolve and
cache the dialect, open the connection (a sqlite url also opens the raw
sqlite handle), and run `ensurePlanItemsTable`; afterwards, reuse the
handle.  (The catch-and-stay-disconnected path is not needed by any claim
and is omitted; this models the successful initialization.) -/
def getDb (env : DbEnv) (st : DbConnState) : DbConnState :=
  if st.dbHandle.isNone && env.databaseUrl != "" then
    let dialect := resolveDialect env.dbDialectOverride env.databaseUrl
    let st1 := { st with dialectCache := some dialect }
    let st2 :=
      match dialect with
      | .sqlite => { st1 with sqliteHandle := true, dbHandle := some .sqlite }
      | .mysql => { st1 with dbHandle := some .mysql }
    ensurePlanItemsTable dialect st2
  else st

/-! # Theorems

First the calendar kernel lemmas, then general list lemmas, then one
theorem per specification claim (with witnesses and counterexamples).
-/

set_option maxHeartbeats 1600000
set_option maxRecDepth 16384

theorem centR (yoe doy : Int) (hy0 : 0 ≤ yoe) (hy399 : yoe ≤ 399)
    (hd0 : 0 ≤ doy) (hd364 : doy ≤ 364) :
    centOfDoe (yoe * 365 + yoe / 4 - yoe / 100 + doy) = yoe / 100 := by
  unfold centOfDoe
  omega

theorem docR (yoe doy : Int) (hy0 : 0 ≤ yoe) (hy399 : yoe ≤ 399)
    (hd0 : 0 ≤ doy) (hd364 : doy ≤ 364) :
    docOfDoe (yoe * 365 + yoe / 4 - yoe / 100 + doy) =
      365 * (yoe - 100 * (yoe / 100)) + (yoe - 100 * (yoe / 100)) / 4 + doy := by
  have hc := centR yoe doy hy0 hy399 hd0 hd364
  unfold docOfDoe
  rw [hc]
  omega

theorem yocR (yoe doy : Int) (hy0 : 0 ≤ yoe) (hy399 : yoe ≤ 399)
    (hd0 : 0 ≤ doy) (hd364 : doy ≤ 364) :
    yocOfDoe (yoe * 365 + yoe / 4 - yoe / 100 + doy) = yoe - 100 * (yoe / 100) := by
  have hdoc := docR yoe doy hy0 hy399 hd0 hd364
  unfold yocOfDoe
  rw [hdoc]
  omega

theorem doyR (yoe doy : Int) (hy0 : 0 ≤ yoe) (hy399 : yoe ≤ 399)
    (hd0 : 0 ≤ doy) (hd364 : doy ≤ 364) :
    doyOfDoe (yoe * 365 + yoe / 4 - yoe / 100 + doy) = doy := by
  have hdoc := docR yoe doy hy0 hy399 hd0 hd364
  have hyoc := yocR yoe doy hy0 hy399 hd0 hd364
  unfold doyOfDoe
  rw [hdoc, hyoc]
  omega

theorem monthRecover (mp : Int) (h0 : 0 ≤ mp) (h1 : mp ≤ 11) :
    mpOfDoy ((153 * mp + 2) / 5) = mp := by
  unfold mpOfDoy
  omega

theorem eraR (era doe : Int) (h0 : 0 ≤ doe) (h1 : doe ≤ 146096) :
    eraOfZ (era * 146097 + doe - 719468) = era ∧
    doeOfZ (era * 146097 + doe - 719468) = doe := by
  unfold doeOfZ eraOfZ
  omega

theorem reconstructAux (era c q doy : Int)
    (hc0 : 0 ≤ c) (hc3 : c ≤ 3) (hq0 : 0 ≤ q) (hq9 : q ≤ 99)
    (hd0 : 0 ≤ doy) (hd365 : doy ≤ 365) :
    daysFromCivil
      (if mpOfDoy doy + (if mpOfDoy doy < 10 then 3 else -9) ≤ 2
        then 100 * c + q + era * 400 + 1 else 100 * c + q + era * 400)
      (mpOfDoy doy + (if mpOfDoy doy < 10 then 3 else -9))
      (doy - (153 * mpOfDoy doy + 2) / 5 + 1)
    = era * 146097 + (36524 * c + c / 4) + (365 * q + q / 4) + doy - 719468 := by
  unfold daysFromCivil mpOfDoy
  simp only []
  split <;> split <;> omega

theorem centOfDoe_bounds (z : Int) : 0 ≤ centOfDoe (doeOfZ z) ∧ centOfDoe (doeOfZ z) ≤ 3 := by
  unfold centOfDoe doeOfZ eraOfZ
  omega

theorem yocOfDoe_bounds (z : Int) : 0 ≤ yocOfDoe (doeOfZ z) ∧ yocOfDoe (doeOfZ z) ≤ 99 := by
  unfold yocOfDoe docOfDoe centOfDoe doeOfZ eraOfZ
  omega

theorem doyOfDoe_bounds (z : Int) : 0 ≤ doyOfDoe (doeOfZ z) ∧ doyOfDoe (doeOfZ z) ≤ 365 := by
  unfold doyOfDoe yocOfDoe docOfDoe centOfDoe doeOfZ eraOfZ
  omega

/-- Reading the civil fields of a day count and turning them back into a day
count is the identity: `civilFromDays` inverts `daysFromCivil`. -/
theorem days_civil_days (z : Int) :
    daysFromCivil (civilFromDays z).1 (civilFromDays z).2.1 (civilFromDays z).2.2 = z := by
  have hb1 := centOfDoe_bounds z
  have hb2 := yocOfDoe_bounds z
  have hb3 := doyOfDoe_bounds z
  have h := reconstructAux (eraOfZ z) (centOfDoe (doeOfZ z)) (yocOfDoe (doeOfZ z))
    (doyOfDoe (doeOfZ z)) hb1.1 hb1.2 hb2.1 hb2.2 hb3.1 hb3.2
  have hz : eraOfZ z * 146097 +
      (36524 * centOfDoe (doeOfZ z) + centOfDoe (doeOfZ z) / 4) +
      (365 * yocOfDoe (doeOfZ z) + yocOfDoe (doeOfZ z) / 4) +
      doyOfDoe (doeOfZ z) - 719468 = z := by
    unfold doyOfDoe yocOfDoe docOfDoe centOfDoe doeOfZ eraOfZ
    omega
  exact h.trans hz

theorem civilAtYearStart (era yoe mp : Int) (hy0 : 0 ≤ yoe) (hy399 : yoe ≤ 399)
    (hmp0 : 0 ≤ mp) (hmp11 : mp ≤ 11) :
    civilFromDays (era * 146097 + (yoe * 365 + yoe / 4 - yoe / 100 + (153 * mp + 2) / 5) - 719468)
      = (yoe + era * 400 + (if 10 ≤ mp then 1 else 0),
         mp + (if mp < 10 then 3 else -9),
         1) := by
  have hdoy0 : (0 : Int) ≤ (153 * mp + 2) / 5 := by omega
  have hdoy364 : (153 * mp + 2) / 5 ≤ 364 := by omega
  have hdoe0 : (0 : Int) ≤ yoe * 365 + yoe / 4 - yoe / 100 + (153 * mp + 2) / 5 := by omega
  have hdoe1 : yoe * 365 + yoe / 4 - yoe / 100 + (153 * mp + 2) / 5 ≤ 146096 := by omega
  have hera := eraR era (yoe * 365 + yoe / 4 - yoe / 100 + (153 * mp + 2) / 5) hdoe0 hdoe1
  have hcent := centR yoe ((153 * mp + 2) / 5) hy0 hy399 hdoy0 hdoy364
  have hyoc := yocR yoe ((153 * mp + 2) / 5) hy0 hy399 hdoy0 hdoy364
  have hdoy := doyR yoe ((153 * mp + 2) / 5) hy0 hy399 hdoy0 hdoy364
  unfold civilFromDays
  rw [hera.2, hcent, hyoc, hdoy, monthRecover mp hmp0 hmp11, hera.1]
  simp only [Prod.mk.injEq]
  split_ifs <;> exact ⟨by omega, trivial, by omega⟩

/-- The month and day produced by `civilFromDays` are a valid civil date. -/
theorem civilFromDays_fields_valid (z : Int) :
    1 ≤ (civilFromDays z).2.1 ∧ (civilFromDays z).2.1 ≤ 12 ∧
    1 ≤ (civilFromDays z).2.2 ∧ (civilFromDays z).2.2 ≤ 31 := by
  have hb3 := doyOfDoe_bounds z
  unfold civilFromDays mpOfDoy at *
  simp only []
  split <;> omega

/-- `daysFromCivil` is affine in the day of the month. -/
theorem daysFromCivil_day_affine (y m d : Int) :
    daysFromCivil y m d = daysFromCivil y m 1 + (d - 1) := by
  unfold daysFromCivil
  simp only []
  split <;> omega

/-- Turning civil fields back into a day count and reading them again is the
identity, at the first day of any month. -/
theorem civil_days_first (y m : Int) (hm1 : 1 ≤ m) (hm12 : m ≤ 12) :
    civilFromDays (daysFromCivil y m 1) = (y, m, 1) := by
  by_cases hm2 : m ≤ 2
  · have harg : daysFromCivil y m 1 =
        ((y - 1) / 400) * 146097 +
          ((y - 1 - (y - 1) / 400 * 400) * 365 + (y - 1 - (y - 1) / 400 * 400) / 4 -
            (y - 1 - (y - 1) / 400 * 400) / 100 + (153 * (m + 9) + 2) / 5) - 719468 := by
      unfold daysFromCivil
      simp only [if_pos hm2]
      omega
    rw [harg, civilAtYearStart ((y - 1) / 400) (y - 1 - (y - 1) / 400 * 400) (m + 9)
      (by omega) (by omega) (by omega) (by omega)]
    simp only [Prod.mk.injEq]
    split_ifs <;> exact ⟨by omega, by omega, trivial⟩
  · have harg : daysFromCivil y m 1 =
        (y / 400) * 146097 +
          ((y - y / 400 * 400) * 365 + (y - y / 400 * 400) / 4 -
            (y - y / 400 * 400) / 100 + (153 * (m - 3) + 2) / 5) - 719468 := by
      unfold daysFromCivil
      simp only [if_neg hm2]
      omega
    rw [harg, civilAtYearStart (y / 400) (y - y / 400 * 400) (m - 3)
      (by omega) (by omega) (by omega) (by omega)]
    simp only [Prod.mk.injEq]
    split_ifs <;> exact ⟨by omega, by omega, trivial⟩

theorem getWeekStart_spec (d : DateTime) :
    (getWeekStart d).msOfDay = 0 ∧
    (getWeekStart d).days = d.days + (if jsGetDay d = 0 then -6 else 1 - jsGetDay d) := by
  unfold getWeekStart jsSetDate jsStartOfDay
  refine ⟨rfl, ?_⟩
  simp only []
  split <;> omega

theorem getWeekStart_monday (d : DateTime) : jsGetDay (getWeekStart d) = 1 := by
  have h := getWeekStart_spec d
  unfold jsGetDay at *
  rw [h.2]
  split <;> omega

theorem getMonthStart_spec (d : DateTime) :
    (getMonthStart d).msOfDay = 0 ∧
    civilFromDays (getMonthStart d).days = (jsGetFullYear d, jsGetMonth d + 1, 1) ∧
    (getMonthStart d).days ≤ d.days := by
  have hv := civilFromDays_fields_valid d.days
  have hm : jsGetMonth d + 1 = (civilFromDays d.days).2.1 := by
    unfold jsGetMonth
    omega
  refine ⟨rfl, ?_, ?_⟩
  · have : (getMonthStart d).days = daysFromCivil (jsGetFullYear d) (jsGetMonth d + 1) 1 := rfl
    rw [this, civil_days_first (jsGetFullYear d) (jsGetMonth d + 1) (by omega) (by omega)]
  · have h1 : (getMonthStart d).days = daysFromCivil (jsGetFullYear d) (jsGetMonth d + 1) 1 := rfl
    have h2 := days_civil_days d.days
    have h3 := daysFromCivil_day_affine (jsGetFullYear d) (jsGetMonth d + 1)
      (civilFromDays d.days).2.2
    have h4 : daysFromCivil (jsGetFullYear d) (jsGetMonth d + 1) (civilFromDays d.days).2.2
        = d.days := by
      unfold jsGetFullYear
      rw [hm]
      exact h2
    omega

/-- C7: For every anchor date, the week period start computed for plan items
is the Monday of the week containing the anchor at 00:00:00.000 local time
(when the anchor is a Sunday, six days earlier), and the month period start
is the 1st of the anchor's month at 00:00:00.000; in particular a plan item
created with period type "week" and a Wednesday anchor is stored with
`periodStart` equal to that week's Monday at midnight. -/
theorem C7_period_start_normalization (anchor : DateTime) :
    ((getWeekStart anchor).msOfDay = 0 ∧
     jsGetDay (getWeekStart anchor) = 1 ∧
     (getWeekStart anchor).days ≤ anchor.days ∧
     anchor.days - (getWeekStart anchor).days < 7 ∧
     (jsGetDay anchor = 0 → (getWeekStart anchor).days = anchor.days - 6)) ∧
    ((getMonthStart anchor).msOfDay = 0 ∧
     civilFromDays (getMonthStart anchor).days =
       (jsGetFullYear anchor, jsGetMonth anchor + 1, 1) ∧
     (getMonthStart anchor).days ≤ anchor.days) ∧
    (∀ (uid freshId : Nat) (title : String) (descr : Option String) (db : List PlanItem),
      jsGetDay anchor = 3 →
      planCreate uid .week title descr anchor freshId db =
        db ++ [{ id := freshId, userId := uid, periodType := .week,
                 periodStart := { days := anchor.days - 2, msOfDay := 0 },
                 title := title, description := descr, completed := false,
                 createdAt := anchor, updatedAt := anchor }]) := by
  have hw := getWeekStart_spec anchor
  have hwm := getWeekStart_monday anchor
  have hms := getMonthStart_spec anchor
  have hday : 0 ≤ jsGetDay anchor ∧ jsGetDay anchor ≤ 6 := by
    unfold jsGetDay
    omega
  refine ⟨⟨hw.1, hwm, by rw [hw.2]; split <;> omega, by rw [hw.2]; split <;> omega, ?_⟩,
          hms, ?_⟩
  · intro hsun
    rw [hw.2, if_pos hsun]
    omega
  · intro uid freshId title descr db hwed
    have hdays : (getWeekStart anchor).days = anchor.days - 2 := by
      rw [hw.2, hwed]
      norm_num
      omega
    have hgw : getWeekStart anchor = { days := anchor.days - 2, msOfDay := 0 } := by
      have heta : getWeekStart anchor =
          { days := (getWeekStart anchor).days, msOfDay := (getWeekStart anchor).msOfDay } := rfl
      rw [heta, hdays, hw.1]
    unfold planCreate createPlanItem getPlanPeriodStart
    rw [hgw]

/-- Witness for C7 at concrete anchors: 2026-10-07 (day count 20733) is a
Wednesday and 2026-10-11 (day count 20737) is a Sunday. -/
theorem C7_period_start_normalization_witness :
    jsGetDay ⟨20733, 5000⟩ = 3 ∧
    jsGetDay ⟨20737, 0⟩ = 0 ∧
    planCreate 1 .week "w" none ⟨20733, 5000⟩ 9 [] =
      [{ id := 9, userId := 1, periodType := .week,
         periodStart := { days := 20731, msOfDay := 0 },
         title := "w", description := none, completed := false,
         createdAt := ⟨20733, 5000⟩, updatedAt := ⟨20733, 5000⟩ }] ∧
    (getWeekStart ⟨20737, 0⟩).days = 20737 - 6 := by
  refine ⟨by decide, by decide, ?_, ?_⟩
  · exact (C7_period_start_normalization ⟨20733, 5000⟩).2.2 1 9 "w" none [] (by decide)
  · exact (C7_period_start_normalization ⟨20737, 0⟩).1.2.2.2.2 (by decide)

theorem mem_insertLe {α : Type} (le : α → α → Bool) (x a : α) (l : List α) :
    a ∈ insertLe le x l ↔ a = x ∨ a ∈ l := by
  induction l with
  | nil => simp [insertLe]
  | cons y ys ih =>
    unfold insertLe
    split
    · simp
    · simp only [List.mem_cons, ih]
      tauto

theorem mem_sortByLe {α : Type} (le : α → α → Bool) (a : α) (l : List α) :
    a ∈ sortByLe le l ↔ a ∈ l := by
  induction l with
  | nil => simp [sortByLe]
  | cons y ys ih =>
    unfold sortByLe
    rw [mem_insertLe, ih]
    simp

theorem map_if_no_match {α : Type} (f : α → α) (pred : α → Bool) (l : List α)
    (h : ∀ x ∈ l, pred x = false) :
    l.map (fun x => if pred x then f x else x) = l := by
  induction l with
  | nil => rfl
  | cons y ys ih =>
    have hy : pred y = false := h y (List.mem_cons_self y ys)
    simp only [List.map_cons, hy, Bool.false_eq_true, if_false]
    rw [ih (fun x hx => h x (List.mem_cons_of_mem y hx))]

theorem dueWithin_day_iff (t : Todo) (dd q : DateTime) (h : t.dueDate = some dd)
    (hms0 : 0 ≤ dd.msOfDay) (hms1 : dd.msOfDay < 86400000) :
    dueWithin t (jsStartOfDay q) (jsEndOfDay q) = true ↔ dd.days = q.days := by
  simp only [dueWithin, h, jsStartOfDay, jsEndOfDay, DateTime.toMillis, msPerDay,
    Bool.and_eq_true, decide_eq_true_eq]
  omega

theorem dueWithin_range_iff (t : Todo) (dd qs qe : DateTime) (h : t.dueDate = some dd)
    (hms0 : 0 ≤ dd.msOfDay) (hms1 : dd.msOfDay < 86400000) :
    dueWithin t (jsStartOfDay qs) (jsEndOfDay qe) = true ↔
      qs.days ≤ dd.days ∧ dd.days ≤ qe.days := by
  simp only [dueWithin, h, jsStartOfDay, jsEndOfDay, DateTime.toMillis, msPerDay,
    Bool.and_eq_true, decide_eq_true_eq]
  omega

/-- C8: a todo whose due date falls on calendar day D is returned by
`todo.list(D)` and by `todo.history(D-1, D+1)` but not by `todo.list(D+2)`;
membership in a day listing is exactly "belongs to the user and the due
date falls inside [00:00:00.000, 23:59:59.999] of that day". -/
theorem C8_day_window_queries (db : List Todo) (u : Nat) (t : Todo) (dd : DateTime)
    (qd qp qn q2 : DateTime)
    (ht : t ∈ db) (hu : t.userId = u) (hdue : t.dueDate = some dd)
    (hms0 : 0 ≤ dd.msOfDay) (hms1 : dd.msOfDay < 86400000)
    (hq : qd.days = dd.days) (hp : qp.days = dd.days - 1)
    (hn : qn.days = dd.days + 1) (h2 : q2.days = dd.days + 2) :
    t ∈ todoList u (some qd) db ∧
    t ∈ todoHistory u qp qn db ∧
    t ∉ todoList u (some q2) db ∧
    (∀ t2 ∈ db, ∀ dd2 : DateTime, t2.dueDate = some dd2 →
      0 ≤ dd2.msOfDay → dd2.msOfDay < 86400000 →
      (t2 ∈ todoList u (some qd) db ↔ t2.userId = u ∧ dd2.days = qd.days)) := by
  refine ⟨?_, ?_, ?_, ?_⟩
  · simp only [todoList, getTodosByUserId]
    rw [mem_sortByLe, List.mem_filter]
    refine ⟨ht, ?_⟩
    simp only [Bool.and_eq_true, beq_iff_eq]
    exact ⟨hu, (dueWithin_day_iff t dd qd hdue hms0 hms1).mpr (by omega)⟩
  · simp only [todoHistory, getTodosDateRange]
    rw [mem_sortByLe, List.mem_filter]
    refine ⟨ht, ?_⟩
    simp only [Bool.and_eq_true, beq_iff_eq]
    exact ⟨hu, (dueWithin_range_iff t dd qp qn hdue hms0 hms1).mpr (by omega)⟩
  · simp only [todoList, getTodosByUserId]
    rw [mem_sortByLe, List.mem_filter]
    intro hmem
    have hdw := hmem.2
    simp only [Bool.and_eq_true, beq_iff_eq] at hdw
    have := (dueWithin_day_iff t dd q2 hdue hms0 hms1).mp hdw.2
    omega
  · intro t2 ht2 dd2 hdue2 hms20 hms21
    simp only [todoList, getTodosByUserId]
    rw [mem_sortByLe, List.mem_filter]
    simp only [Bool.and_eq_true, beq_iff_eq]
    constructor
    · intro hmem
      exact ⟨hmem.2.1, (dueWithin_day_iff t2 dd2 qd hdue2 hms20 hms21).mp hmem.2.2⟩
    · intro hmem
      exact ⟨ht2, hmem.1, (dueWithin_day_iff t2 dd2 qd hdue2 hms20 hms21).mpr hmem.2⟩

/-- Witness for C8: one todo due on day 20000, listed on day 20000 (from a
different time of day), in the history window [19999, 20001], and absent
from day 20002. -/
theorem C8_day_window_queries_witness :
    let t : Todo := { id := 1, userId := 5, title := "a", description := none,
                      completed := false, createdAt := ⟨20000, 0⟩,
                      updatedAt := ⟨20000, 0⟩, dueDate := some ⟨20000, 3600000⟩ }
    t ∈ todoList 5 (some ⟨20000, 7200000⟩) [t] ∧
    t ∈ todoHistory 5 ⟨19999, 1⟩ ⟨20001, 2⟩ [t] ∧
    t ∉ todoList 5 (some ⟨20002, 0⟩) [t] := by
  intro t
  have h := C8_day_window_queries [t] 5 t ⟨20000, 3600000⟩
    ⟨20000, 7200000⟩ ⟨19999, 1⟩ ⟨20001, 2⟩ ⟨20002, 0⟩
    (by decide) (by decide) (by decide) (by decide) (by decide)
    (by decide) (by decide) (by decide) (by decide)
  exact ⟨h.1, h.2.1, h.2.2.1⟩

/-- C9: every todo created through `todo.create` has a non-null due date —
an omitted `dueDate` is silently defaulted to the current moment, so the
todo appears in `list(today)` — and the completed flag starts false. -/
theorem C9_create_defaults (uid freshId : Nat) (input : TodoCreateInput) (now : DateTime)
    (db : List Todo) :
    ∃ newTodo : Todo,
      todoCreate uid input now freshId db = db ++ [newTodo] ∧
      newTodo.dueDate = some (input.dueDate.getD now) ∧
      newTodo.dueDate.isSome = true ∧
      newTodo.completed = false ∧
      (input.dueDate = none →
        newTodo.dueDate = some now ∧
        (0 ≤ now.msOfDay → now.msOfDay < 86400000 →
          newTodo ∈ todoList uid (some now) (todoCreate uid input now freshId db))) := by
  refine ⟨_, rfl, rfl, rfl, rfl, ?_⟩
  intro hnone
  have hdue : (todoDataOf input now).dueDate = some now := by
    simp [todoDataOf, hnone]
  refine ⟨hdue, ?_⟩
  intro hms0 hms1
  simp only [todoList, getTodosByUserId, todoCreate, createTodo]
  rw [mem_sortByLe, List.mem_filter]
  constructor
  · exact List.mem_append_right db (List.mem_singleton.mpr rfl)
  · simp only [Bool.and_eq_true, beq_iff_eq]
    exact ⟨trivial, (dueWithin_day_iff _ now now hdue hms0 hms1).mpr rfl⟩

/-- Witness for C9: creating a todo with no due date at day 20000, 08:00
local time, stores `dueDate = now` and the todo shows up in `list` for a
query at another time of the same day. -/
theorem C9_create_defaults_witness :
    ∃ newTodo : Todo,
      todoCreate 4 { title := "Buy milk" } ⟨20000, 28800000⟩ 11 [] = [newTodo] ∧
      newTodo.dueDate = some ⟨20000, 28800000⟩ ∧
      newTodo.completed = false ∧
      newTodo ∈ todoList 4 (some ⟨20000, 28800000⟩)
        (todoCreate 4 { title := "Buy milk" } ⟨20000, 28800000⟩ 11 []) := by
  obtain ⟨t, h1, h2, _h3, h4, h5⟩ :=
    C9_create_defaults 4 11 { title := "Buy milk" } ⟨20000, 28800000⟩ []
  obtain ⟨h6, h7⟩ := h5 rfl
  exact ⟨t, h1, h6, h4, h7 (by decide) (by decide)⟩

/-- C1: for users A ≠ B and an entity id owned (exclusively) by B, the
operations `get`, `update`, `toggle`, `delete` invoked under A's session
answer NOT_FOUND and leave the store unchanged — indistinguishable from a
nonexistent id, because every lookup is scoped by the (id, userId) pair. -/
theorem C1_cross_user_isolation (A B i : Nat) (dbT : List Todo) (dbP : List PlanItem)
    (u : TodoUpdate) (pu : PlanItemUpdate) (now : DateTime)
    (hAB : A ≠ B)
    (hexT : ∃ t ∈ dbT, t.id = i ∧ t.userId = B)
    (hexP : ∃ p ∈ dbP, p.id = i ∧ p.userId = B)
    (hOwnT : ∀ t ∈ dbT, t.id = i → t.userId = B)
    (hOwnP : ∀ p ∈ dbP, p.id = i → p.userId = B) :
    getTodoById i A dbT = none ∧
    getPlanItemById A i dbP = none ∧
    todoGet A i dbT = .error todoNotFound ∧
    todoUpdate A i u now dbT = (.error todoNotFound, dbT) ∧
    todoDelete A i dbT = (.error todoNotFound, dbT) ∧
    todoToggle A i now dbT = (.error todoNotFound, dbT) ∧
    planToggle A i now dbP = (.error planItemNotFound, dbP) ∧
    planDelete A i dbP = (.error planItemNotFound, dbP) ∧
    updateTodo i A u now dbT = dbT ∧
    updatePlanItem A i pu now dbP = dbP ∧
    deleteTodo i A dbT = dbT ∧
    deletePlanItem A i dbP = dbP := by
  have hTpred : ∀ t ∈ dbT, (t.id == i && t.userId == A) = false := by
    intro t htm
    by_contra hc
    have : (t.id == i && t.userId == A) = true := by
      cases h : (t.id == i && t.userId == A)
      · exact absurd h hc
      · rfl
    simp only [Bool.and_eq_true, beq_iff_eq] at this
    exact hAB (this.2.symm.trans (hOwnT t htm this.1))
  have hPpred : ∀ p ∈ dbP, (p.id == i && p.userId == A) = false := by
    intro p hpm
    by_contra hc
    have : (p.id == i && p.userId == A) = true := by
      cases h : (p.id == i && p.userId == A)
      · exact absurd h hc
      · rfl
    simp only [Bool.and_eq_true, beq_iff_eq] at this
    exact hAB (this.2.symm.trans (hOwnP p hpm this.1))
  have hT : getTodoById i A dbT = none := by
    unfold getTodoById
    rw [List.find?_eq_none]
    intro t htm
    simp [hTpred t htm]
  have hP : getPlanItemById A i dbP = none := by
    unfold getPlanItemById
    rw [List.find?_eq_none]
    intro p hpm
    simp [hPpred p hpm]
  refine ⟨hT, hP, ?_, ?_, ?_, ?_, ?_, ?_, ?_, ?_, ?_, ?_⟩
  · simp [todoGet, hT]
  · simp [todoUpdate, hT]
  · simp [todoDelete, hT]
  · simp [todoToggle, hT]
  · simp [planToggle, hP]
  · simp [planDelete, hP]
  · exact map_if_no_match (applyTodoUpdate u now) _ dbT hTpred
  · exact map_if_no_match (applyPlanItemUpdate pu now) _ dbP hPpred
  · unfold deleteTodo
    rw [List.filter_eq_self]
    intro t htm
    simp [hTpred t htm]
  · unfold deletePlanItem
    rw [List.filter_eq_self]
    intro p hpm
    simp [hPpred p hpm]

/-- Witness for C1: user 7 probing the todo and plan item with id 1 owned by
user 2. -/
theorem C1_cross_user_isolation_witness :
    let t0 : Todo := { id := 1, userId := 2, title := "x", description := none,
                       completed := false, createdAt := ⟨0, 0⟩, updatedAt := ⟨0, 0⟩,
                       dueDate := none }
    let p0 : PlanItem := { id := 1, userId := 2, periodType := .week,
                           periodStart := ⟨0, 0⟩, title := "y", description := none,
                           completed := false, createdAt := ⟨0, 0⟩, updatedAt := ⟨0, 0⟩ }
    todoGet 7 1 [t0] = .error todoNotFound ∧
    todoToggle 7 1 ⟨0, 0⟩ [t0] = (.error todoNotFound, [t0]) ∧
    planToggle 7 1 ⟨0, 0⟩ [p0] = (.error planItemNotFound, [p0]) ∧
    planDelete 7 1 [p0] = (.error planItemNotFound, [p0]) := by
  intro t0 p0
  have h := C1_cross_user_isolation 7 2 1 [t0] [p0] {} {} ⟨0, 0⟩
    (by decide) ⟨t0, by decide, rfl, rfl⟩ ⟨p0, by decide, rfl, rfl⟩
    (by decide) (by decide)
  exact ⟨h.2.2.1, h.2.2.2.2.2.1, h.2.2.2.2.2.2.1, h.2.2.2.2.2.2.2.1⟩

theorem hexDigitChar_ne_colon (n : Nat) (h : n < 16) : hexDigitChar n ≠ ':' := by
  interval_cases n <;> decide

theorem toHex_no_colon (bs : List (Fin 256)) : ':' ∉ toHex bs := by
  induction bs with
  | nil => simp [toHex]
  | cons b rest ih =>
    simp only [toHex, List.mem_cons]
    push_neg
    refine ⟨?_, ?_, ih⟩
    · exact fun hc => hexDigitChar_ne_colon (b.val / 16) (by omega) hc.symm
    · exact fun hc => hexDigitChar_ne_colon (b.val % 16) (by omega) hc.symm

theorem splitColonAux_no_colon (s : List Char) (h : ':' ∉ s) : splitColonAux s = (s, []) := by
  induction s with
  | nil => rfl
  | cons c rest ih =>
    simp only [List.mem_cons, not_or] at h
    unfold splitColonAux
    rw [ih h.2, if_neg (fun hc => h.1 hc.symm)]

theorem splitColonAux_append (a b : List Char) (ha : ':' ∉ a) (hb : ':' ∉ b) :
    splitColonAux (a ++ ':' :: b) = (a, [b]) := by
  induction a with
  | nil =>
    simp only [List.nil_append]
    unfold splitColonAux
    rw [splitColonAux_no_colon b hb, if_pos rfl]
  | cons c rest ih =>
    simp only [List.mem_cons, not_or] at ha
    simp only [List.cons_append]
    unfold splitColonAux
    rw [ih ha.2, if_neg (fun hc => ha.1 hc.symm)]

theorem splitOnColon_append (a b : List Char) (ha : ':' ∉ a) (hb : ':' ∉ b) :
    splitOnColon (a ++ ':' :: b) = [a, b] := by
  unfold splitOnColon
  rw [splitColonAux_append a b ha hb]

theorem hexVal?_hexDigitChar : ∀ m : Fin 16, hexVal? (hexDigitChar m.val) = some m := by
  decide

theorem bufferFromHex_toHex (bs : List (Fin 256)) : bufferFromHex (toHex bs) = bs := by
  induction bs with
  | nil => rfl
  | cons b rest ih =>
    show bufferFromHex
      (hexDigitChar (b.val / 16) :: hexDigitChar (b.val % 16) :: toHex rest) = b :: rest
    unfold bufferFromHex
    rw [hexVal?_hexDigitChar ⟨b.val / 16, by omega⟩, hexVal?_hexDigitChar ⟨b.val % 16, by omega⟩]
    simp only [ih, List.cons.injEq, and_true]
    exact Fin.ext ((by omega : 16 * (b.val / 16) + b.val % 16 = b.val))

theorem toHex_length (bs : List (Fin 256)) : (toHex bs).length = 2 * bs.length := by
  induction bs with
  | nil => rfl
  | cons b rest ih =>
    simp only [toHex, List.length_cons, ih]
    omega

/-- C4: verifying a password against the stored hash that `hashPassword`
produced for it succeeds, and verifying any password whose derived key
differs (any password, under the standing assumption that the KDF does not
collide on this salt) fails.  The hypotheses record what node's crypto
guarantees: the salt is a non-empty hex string (so colon-free) and
`scryptSync(·, ·, 64)` returns 64 key bytes. -/
theorem C4_hash_verify_roundtrip (scrypt : String → List Char → List (Fin 256))
    (salt : List Char) (p w : String)
    (hsalt_ne : salt ≠ []) (hsalt_colon : ':' ∉ salt)
    (hlen : (scrypt p salt).length = 64) :
    verifyPassword scrypt p (hashPassword scrypt salt p) = true ∧
    (scrypt w salt ≠ scrypt p salt →
      verifyPassword scrypt w (hashPassword scrypt salt p) = false) := by
  have hsplit : splitOnColon (salt ++ ':' :: toHex (scrypt p salt)) =
      [salt, toHex (scrypt p salt)] :=
    splitOnColon_append salt (toHex (scrypt p salt)) hsalt_colon (toHex_no_colon _)
  have hse : salt.isEmpty = false := by
    cases salt
    · exact absurd rfl hsalt_ne
    · rfl
  have hne2 : toHex (scrypt p salt) ≠ [] := by
    intro hh
    have hl2 := toHex_length (scrypt p salt)
    rw [hh, hlen] at hl2
    simp at hl2
  have hke : (toHex (scrypt p salt)).isEmpty = false := by
    cases hh : toHex (scrypt p salt)
    · exact absurd hh hne2
    · rfl
  have hg0 : List.getD [salt, toHex (scrypt p salt)] 0 [] = salt := rfl
  have hg1 : List.getD [salt, toHex (scrypt p salt)] 1 [] = toHex (scrypt p salt) := rfl
  constructor
  · unfold verifyPassword hashPassword
    simp only []
    rw [hsplit, hg0, hg1, hse, hke, bufferFromHex_toHex]
    simp
  · intro hne
    unfold verifyPassword hashPassword
    simp only []
    rw [hsplit, hg0, hg1, hse, hke, bufferFromHex_toHex]
    simp only [Bool.or_self, Bool.false_eq_true, if_false]
    split
    · rfl
    · cases hbe : (scrypt p salt == scrypt w salt)
      · rfl
      · exact absurd (beq_iff_eq.mp hbe).symm hne

/-- C5: `verifyPassword` is a total function, and on a malformed stored
value with no `salt:key` delimiter it returns false (rather than
throwing). -/
theorem C5_verify_malformed (scrypt : String → List Char → List (Fin 256))
    (p : String) (stored : List Char) (h : ':' ∉ stored) :
    verifyPassword scrypt p stored = false := by
  unfold verifyPassword
  rw [show splitOnColon stored = [stored] from by
    unfold splitOnColon
    rw [splitColonAux_no_colon stored h]]
  simp [List.getD]

/-- Witness for C4 with a concrete (toy, collision-free-on-these-inputs)
key-derivation function. -/
theorem C4_hash_verify_roundtrip_witness :
    let K : String → List Char → List (Fin 256) :=
      fun pw _s => List.replicate 64 ⟨pw.length % 256, Nat.mod_lt _ (by decide)⟩
    (['a', 'b'] : List Char) ≠ [] ∧ ':' ∉ (['a', 'b'] : List Char) ∧
    (K "secret1" ['a', 'b']).length = 64 ∧
    K "other" ['a', 'b'] ≠ K "secret1" ['a', 'b'] ∧
    verifyPassword K "secret1" (hashPassword K ['a', 'b'] "secret1") = true ∧
    verifyPassword K "other" (hashPassword K ['a', 'b'] "secret1") = false := by
  intro K
  have h := C4_hash_verify_roundtrip K ['a', 'b'] "secret1" "other"
    (by decide) (by decide) (by decide)
  exact ⟨by decide, by decide, by decide, by decide, h.1, h.2 (by decide)⟩

/-- Witness for C5: a stored value with no delimiter is rejected. -/
theorem C5_verify_malformed_witness :
    ':' ∉ "deadbeef".data ∧
    verifyPassword (fun _ _ => List.replicate 64 0) "pw" "deadbeef".data = false :=
  ⟨by decide, C5_verify_malformed (fun _ _ => List.replicate 64 0) "pw" "deadbeef".data (by decide)⟩

theorem contains_singleton (a b : String) : [a].contains b = (b == a) := by
  cases h : (b == a) <;> simp [List.contains, List.elem, h]

/-- C6: session verification returns null — never an exception — for every
token that is not intact, not signed with the configured secret, carries
any algorithm other than HS256, or is expired; for a valid unexpired token
whose `userId` claim is the number this application embeds, it returns
that user id. -/
theorem C6_session_verification (secret : String) (nowSec : Int) (t : Token) :
    (¬(t.intact = true ∧ t.key = secret ∧ t.alg = SESSION_ALG ∧ nowSec < t.exp) →
      verifySessionToken secret nowSec t = none) ∧
    (∀ n : Int, t.intact = true → t.key = secret → t.alg = SESSION_ALG →
      nowSec < t.exp → t.payloadUserId = some (.num n) →
      verifySessionToken secret nowSec t = some n) := by
  constructor
  · intro hnot
    have hc : (t.intact && t.key == secret && [SESSION_ALG].contains t.alg &&
        decide (nowSec < t.exp)) = false := by
      cases hb : (t.intact && t.key == secret && [SESSION_ALG].contains t.alg &&
          decide (nowSec < t.exp)) with
      | true =>
        rw [contains_singleton] at hb
        simp only [Bool.and_eq_true, beq_iff_eq, decide_eq_true_eq] at hb
        exact absurd ⟨hb.1.1.1, hb.1.1.2, hb.1.2, hb.2⟩ hnot
      | false => rfl
    unfold verifySessionToken jwtVerify
    rw [hc]
    simp
  · intro n hint hkey halg hexp hpay
    have hc : (t.intact && t.key == secret && [SESSION_ALG].contains t.alg &&
        decide (nowSec < t.exp)) = true := by
      rw [contains_singleton]
      simp only [Bool.and_eq_true, beq_iff_eq, decide_eq_true_eq]
      exact ⟨⟨⟨hint, hkey⟩, halg⟩, hexp⟩
    unfold verifySessionToken jwtVerify
    rw [hc, hpay]
    simp

/-- Witness for C6: a well-formed unexpired token verifies to its embedded
user id; the same token with a broken signature verifies to null. -/
theorem C6_session_verification_witness :
    verifySessionToken "k" 10
      { alg := "HS256", payloadUserId := some (.num 42), exp := 100,
        key := "k", intact := true } = some 42 ∧
    verifySessionToken "k" 10
      { alg := "HS256", payloadUserId := some (.num 42), exp := 100,
        key := "k", intact := false } = none := by
  constructor
  · exact (C6_session_verification "k" 10
      { alg := "HS256", payloadUserId := some (.num 42), exp := 100,
        key := "k", intact := true }).2 42 rfl rfl rfl (by decide) rfl
  · exact (C6_session_verification "k" 10
      { alg := "HS256", payloadUserId := some (.num 42), exp := 100,
        key := "k", intact := false }).1 (by simp)

/-- Counterexample for C2: the three authentication-failure causes do throw
the same `ForbiddenError` class, but the failure values are not identical —
each carries a message naming its cause ("Missing session cookie",
"Invalid session cookie", "User not found"). -/
theorem C2_failure_signal_counterexample :
    authenticateRequest "k" 0 [] { cookies := [] } =
      .error (ForbiddenError "Missing session cookie") ∧
    authenticateRequest "k" 0 []
      { cookies := [(COOKIE_NAME,
          { alg := "HS256", payloadUserId := some (.num 5), exp := 100,
            key := "k", intact := false })] } =
      .error (ForbiddenError "Invalid session cookie") ∧
    authenticateRequest "k" 0 []
      { cookies := [(COOKIE_NAME,
          { alg := "HS256", payloadUserId := some (.num 5), exp := 100,
            key := "k", intact := true })] } =
      .error (ForbiddenError "User not found") ∧
    ForbiddenError "Missing session cookie" ≠ ForbiddenError "Invalid session cookie" ∧
    ForbiddenError "Invalid session cookie" ≠ ForbiddenError "User not found" ∧
    ForbiddenError "Missing session cookie" ≠ ForbiddenError "User not found" := by
  refine ⟨rfl, rfl, rfl, by decide, by decide, by decide⟩

/-- C2 (amended): every failure of `authenticateRequest` is of the single
forbidden class — missing cookie, invalid or expired token (or a falsy
decoded user id), and non-existent user each yield `ForbiddenError` — but
the attached messages differ by cause, so the failure bodies are
distinguishable even though the class/status is uniform. -/
theorem C2_failure_classes_amended (secret : String) (nowSec : Int) (users : List User)
    (req : AuthRequest) :
    (∀ e, authenticateRequest secret nowSec users req = .error e →
      ∃ msg, e = ForbiddenError msg) ∧
    (req.cookies.find? (fun kv => kv.1 == COOKIE_NAME) = none →
      authenticateRequest secret nowSec users req =
        .error (ForbiddenError "Missing session cookie")) ∧
    (∀ nm tok, req.cookies.find? (fun kv => kv.1 == COOKIE_NAME) = some (nm, tok) →
      verifySessionToken secret nowSec tok = none →
      authenticateRequest secret nowSec users req =
        .error (ForbiddenError "Invalid session cookie")) ∧
    (∀ nm tok uid, req.cookies.find? (fun kv => kv.1 == COOKIE_NAME) = some (nm, tok) →
      verifySessionToken secret nowSec tok = some uid → uid ≠ 0 →
      getUserById uid users = none →
      authenticateRequest secret nowSec users req =
        .error (ForbiddenError "User not found")) := by
  refine ⟨?_, ?_, ?_, ?_⟩
  · intro e he
    unfold authenticateRequest at he
    split at he
    · exact ⟨"Missing session cookie", by injection he with h; exact h.symm⟩
    · split at he
      · exact ⟨"Invalid session cookie", by injection he with h; exact h.symm⟩
      · split at he
        · exact ⟨"Invalid session cookie", by injection he with h; exact h.symm⟩
        · split at he
          · exact ⟨"User not found", by injection he with h; exact h.symm⟩
          · exact absurd he (by simp)
  · intro hfind
    simp [authenticateRequest, hfind]
  · intro nm tok hfind hver
    simp [authenticateRequest, hfind, hver]
  · intro nm tok uid hfind hver huid hget
    simp [authenticateRequest, hfind, hver, hget, huid]

/-- Witness for C2 (amended): the missing-cookie cause on a concrete
request. -/
theorem C2_failure_classes_amended_witness :
    ([] : List (String × Token)).find? (fun kv => kv.1 == COOKIE_NAME) = none ∧
    authenticateRequest "k" 0 [] { cookies := [] } =
      .error (ForbiddenError "Missing session cookie") := by
  have h := C2_failure_classes_amended "k" 0 [] { cookies := [] }
  exact ⟨rfl, h.2.1 rfl⟩

theorem getUserByUsername_append_self (uname : String) (users : List User) (nu : User)
    (h : getUserByUsername uname users = none) (h2 : nu.username = uname) :
    getUserByUsername uname (users ++ [nu]) = some nu := by
  unfold getUserByUsername at *
  induction users with
  | nil =>
    simp only [List.nil_append]
    have : (nu.username == uname) = true := by simp [h2]
    simp [List.find?, this]
  | cons a l ih =>
    rw [List.cons_append]
    cases hpa : (a.username == uname) with
    | true =>
      rw [List.find?_cons_of_pos _ (by simp [hpa])] at h
      exact absurd h (by simp)
    | false =>
      rw [List.find?_cons_of_neg _ (by simp [hpa])] at h
      rw [List.find?_cons_of_neg _ (by simp [hpa])]
      exact ih h

theorem verifySessionToken_createSessionToken (secret : String) (ms uid nowSec : Int)
    (h : nowSec < (ms + ONE_YEAR_MS) / 1000) :
    verifySessionToken secret nowSec (createSessionToken secret ms uid) = some uid := by
  have hc : ((createSessionToken secret ms uid).intact &&
      (createSessionToken secret ms uid).key == secret &&
      [SESSION_ALG].contains (createSessionToken secret ms uid).alg &&
      decide (nowSec < (createSessionToken secret ms uid).exp)) = true := by
    rw [contains_singleton]
    simp only [createSessionToken, Bool.and_eq_true, beq_iff_eq, decide_eq_true_eq]
    exact ⟨⟨⟨by trivial, by trivial⟩, by trivial⟩, h⟩
  unfold verifySessionToken jwtVerify
  rw [hc]
  simp [createSessionToken]

/-- C10: a successful `auth.register` immediately logs the new user in: it
issues a signed session token for the created user id, sets it in the
session cookie with the one-year max-age, and returns the user record with
`passwordHash` stripped (the returned type has no such field). -/
theorem C10_register_logs_in (scrypt : String → List Char → List (Fin 256))
    (salt : List Char) (secret ownerUsername : String) (input : RegisterInput)
    (now : DateTime) (nowMs : Int) (freshId : Nat) (users : List User)
    (hfresh : getUserByUsername input.username users = none) :
    ∃ (au : AuthUser) (ck : SetCookie) (newUser : User),
      authRegister scrypt salt secret ownerUsername input now nowMs freshId users =
        (.ok (au, ck), users ++ [newUser]) ∧
      newUser.id = freshId ∧
      newUser.username = input.username ∧
      au = sanitizeUser newUser ∧
      ck.name = COOKIE_NAME ∧
      ck.maxAge = ONE_YEAR_MS ∧
      ck.token = createSessionToken secret nowMs (freshId : Int) ∧
      verifySessionToken secret (nowMs / 1000) ck.token = some (freshId : Int) := by
  set nu : User :=
    { id := freshId
      username := input.username
      passwordHash := hashPassword scrypt salt input.password
      name := input.name
      email := none
      role := if ownerUsername ≠ "" ∧ input.username = ownerUsername
                then Role.admin else Role.user
      createdAt := now
      updatedAt := now
      lastSignedIn := now } with hnu
  have hu : getUserByUsername input.username
      (createUser input.username (hashPassword scrypt salt input.password) input.name none
        (if ownerUsername ≠ "" ∧ input.username = ownerUsername then Role.admin else Role.user)
        now freshId users) = some nu :=
    getUserByUsername_append_self input.username users nu hfresh rfl
  have hmain : authRegister scrypt salt secret ownerUsername input now nowMs freshId users =
      (.ok (sanitizeUser nu,
            { name := COOKIE_NAME
              token := createSessionToken secret nowMs (freshId : Int)
              maxAge := ONE_YEAR_MS }),
       users ++ [nu]) := by
    unfold authRegister
    rw [hfresh]
    simp only []
    rw [hu]
    rfl
  exact ⟨sanitizeUser nu,
    { name := COOKIE_NAME
      token := createSessionToken secret nowMs (freshId : Int)
      maxAge := ONE_YEAR_MS },
    nu, hmain, rfl, rfl, rfl, rfl, rfl, rfl,
    verifySessionToken_createSessionToken secret nowMs (freshId : Int) (nowMs / 1000)
      (show nowMs / 1000 < (nowMs + 31536000000) / 1000 by omega)⟩

/-- Witness for C10: registering "alice" into an empty store. -/
theorem C10_register_logs_in_witness :
    getUserByUsername "alice" [] = none ∧
    ∃ (au : AuthUser) (ck : SetCookie) (newUser : User),
      authRegister (fun _ _ => List.replicate 64 0) ['a', 'b'] "k" "" 
        { username := "alice", password := "secret1" } ⟨0, 0⟩ 0 1 [] =
        (.ok (au, ck), [] ++ [newUser]) ∧
      newUser.username = "alice" ∧
      ck.maxAge = ONE_YEAR_MS ∧
      verifySessionToken "k" 0 ck.token = some 1 := by
  have h := C10_register_logs_in (fun _ _ => List.replicate 64 0) ['a', 'b'] "k" ""
    { username := "alice", password := "secret1" } ⟨0, 0⟩ 0 1 [] rfl
  obtain ⟨au, ck, nu, h1, _h2, h3, _h4, _h5, h6, _h7, h8⟩ := h
  exact ⟨rfl, au, ck, nu, h1, h3, h6, h8⟩

/-- Counterexample for C3: with a mysql connection string (and no override)
the resolved dialect is mysql, and connection initialization nevertheless
executes the on-demand `CREATE TABLE IF NOT EXISTS plan_items` DDL through
the mysql connection — `getDb` calls `ensurePlanItemsTable` for both
dialects, and its mysql branch runs `db.execute(sql.raw(PLAN_ITEMS_MYSQL))`. -/
theorem C3_mysql_ddl_counterexample :
    resolveDialect none "mysql://root@localhost/todo" = .mysql ∧
    (getDb { databaseUrl := "mysql://root@localhost/todo", dbDialectOverride := none }
        initialDbState).executedDdl = [PLAN_ITEMS_MYSQL] ∧
    (getDb { databaseUrl := "mysql://root@localhost/todo", dbDialectOverride := none }
        initialDbState).executedDdl ≠ [] := by
  refine ⟨by decide, by decide, by decide⟩

/-- C3 (amended): on first use with a configured connection string, the
plan_items table is created on demand for BOTH dialects — the embedded-file
dialect via the raw sqlite handle, and the client-server dialect by
executing its `CREATE TABLE IF NOT EXISTS` statement through the
connection. -/
theorem C3_plan_table_on_demand_amended (env : DbEnv) (st : DbConnState)
    (h1 : st.dbHandle = none) (h2 : env.databaseUrl ≠ "") (h3 : st.planTableReady = false) :
    (getDb env st).executedDdl = st.executedDdl ++
      [if resolveDialect env.dbDialectOverride env.databaseUrl = .sqlite
        then PLAN_ITEMS_SQLITE else PLAN_ITEMS_MYSQL] ∧
    (getDb env st).planTableReady = true ∧
    (getDb env st).dialectCache = some (resolveDialect env.dbDialectOverride env.databaseUrl) ∧
    (getDb env st).dbHandle = some (resolveDialect env.dbDialectOverride env.databaseUrl) := by
  cases hd : resolveDialect env.dbDialectOverride env.databaseUrl with
  | mysql => simp [getDb, ensurePlanItemsTable, h1, h2, h3, hd]
  | sqlite => simp [getDb, ensurePlanItemsTable, h1, h2, h3, hd]

/-- Witness for C3 (amended): a sqlite url creates the table through the
sqlite handle on first connection. -/
theorem C3_plan_table_on_demand_amended_witness :
    ({ databaseUrl := "sqlite:./data.db", dbDialectOverride := none } : DbEnv).databaseUrl ≠ "" ∧
    initialDbState.dbHandle = none ∧
    initialDbState.planTableReady = false ∧
    (getDb { databaseUrl := "sqlite:./data.db", dbDialectOverride := none }
        initialDbState).executedDdl = [PLAN_ITEMS_SQLITE] := by
  have h := C3_plan_table_on_demand_amended
    { databaseUrl := "sqlite:./data.db", dbDialectOverride := none } initialDbState
    rfl (by decide) rfl
  refine ⟨by decide, rfl, rfl, ?_⟩
  rw [h.1]
  rw [show resolveDialect none "sqlite:./data.db" = .sqlite from by decide]
  simp [initialDbState]
